import Mathlib

/-!
Shallow embedding of the reactive core of
`src/Salty-Aircraft-B748-Package/html_ui/Pages/HorizonSim/SaltyIRS.js`:
the observable `Subject` model, the `EventBus` with last-value caching and
cross-instance synchronization adapters, and the `Consumer` filter chain.

Handler callbacks are opaque to the bus, so they are embedded as records
carrying a numeric identity plus the observable effects the claims need
(whether invoking the callback raises an exception; for the mid-dispatch
registration model, which new callbacks it registers).  Dispatch functions
return, alongside the updated state, a trace of the externally observable
events (handler invocations, caught-error log lines, sends to the
synchronization adapter), in the order the JavaScript code performs them,
and an `Option Nat` carrying the identity of an uncaught exception that
propagates out of the call (`none` when the call returns normally).
-/

/-- Payload data carried on the bus.  The `data` arguments in the source are
arbitrary JavaScript values; the embedding uses strings as opaque payloads. -/
abbrev Data := String

/-- A handler registered on the event bus: `hid` identifies the callback
function and `throws` records whether invoking it raises an exception. -/
structure BusHandler where
  hid : Nat
  throws : Bool
deriving DecidableEq, Repr

/-- Externally observable events of one `EventBus` operation, in execution
order: a direct-topic handler invocation `handlers[i](data)`, a
`console.error` line from the catch block around a direct handler, a
`this._busSync.sendEvent(topic, data, isCached)` call, and a wildcard
handler invocation `this._wildcardHandlers[i](topic, data)`. -/
inductive BusEv where
  | invoke (hid : Nat) (data : Data)
  | errorLog (hid : Nat)
  | syncSend (topic : String) (data : Data) (isCached : Bool)
  | wcInvoke (hid : Nat) (topic : String) (data : Data)
deriving DecidableEq, Repr

/-- Lookup in an association list, embedding `Map.get`. -/
def mapGet {α : Type} : List (String × α) → String → Option α
  | [], _ => none
  | (k1, v) :: rest, k => if k1 = k then some v else mapGet rest k

/-- Update in an association list, embedding `Map.set` (overwrites the
entry for an existing key, appends a fresh entry otherwise). -/
def mapSet {α : Type} : List (String × α) → String → α → List (String × α)
  | [], k, v => [(k, v)]
  | (k1, v1) :: rest, k, v =>
      if k1 = k then (k1, v) :: rest else (k1, v1) :: mapSet rest k v

/-- A cached last value on the bus: the `{ data: data, synced: sync }`
record stored in `EventBus._eventCache`. -/
structure CachedEvent where
  data : Data
  synced : Bool
deriving DecidableEq, Repr

/-- The `EventBus` state: `_topicHandlersMap`, `_wildcardHandlers` and
`_eventCache` from the source (the `_busId` and the sync adapter object are
modelled separately, with the sync interaction visible as `syncSend`
trace events). -/
structure EventBus where
  topicHandlersMap : List (String × List BusHandler)
  wildcardHandlers : List BusHandler
  eventCache : List (String × CachedEvent)
deriving Repr

/-- The direct-handler loop of `EventBus.pub`: each handler is invoked with
`data` inside a try/catch, so a throwing handler produces a logged error
and the loop continues with the remaining handlers. -/
def runDirect (data : Data) : List BusHandler → List BusEv
  | [] => []
  | h :: rest =>
      (BusEv.invoke h.hid data :: if h.throws then [BusEv.errorLog h.hid] else [])
        ++ runDirect data rest

/-- The wildcard-handler loop of `EventBus.pub`: invocations are not
wrapped in try/catch, so the first throwing handler aborts the loop and
its exception propagates out of `pub` (returned as `some hid`). -/
def runWildcards (topic : String) (data : Data) : List BusHandler → List BusEv × Option Nat
  | [] => ([], none)
  | h :: rest =>
      if h.throws then ([BusEv.wcInvoke h.hid topic data], some h.hid)
      else
        let r := runWildcards topic data rest
        (BusEv.wcInvoke h.hid topic data :: r.1, r.2)

/-- The direct handlers currently registered for a topic (the source reads
`this._topicHandlersMap.get(topic)` and treats `undefined` as no
handlers). -/
def EventBus.handlersOf (bus : EventBus) (topic : String) : List BusHandler :=
  (mapGet bus.topicHandlersMap topic).getD []

/-- Embedding of `EventBus.pub(topic, data, sync = false, isCached = true)`:
first, if `isCached`, store `{ data, synced: sync }` in the event cache;
then run every direct handler for the topic under try/catch; then, if
`sync`, forward `(topic, data, isCached)` to the synchronization adapter
via `syncEvent`; finally run every wildcard handler (without try/catch).
Returns the updated bus, the event trace, and the uncaught exception (if
a wildcard handler threw). -/
def EventBus.pub (bus : EventBus) (topic : String) (data : Data) (sync : Bool)
    (isCached : Bool) : EventBus × List BusEv × Option Nat :=
  let bus1 := if isCached then
      { bus with eventCache := mapSet bus.eventCache topic ⟨data, sync⟩ }
    else bus
  let directEvs :=
    match mapGet bus1.topicHandlersMap topic with
    | some handlers => runDirect data handlers
    | none => []
  let syncEvs := if sync then [BusEv.syncSend topic data isCached] else []
  let wc := runWildcards topic data bus1.wildcardHandlers
  (bus1, directEvs ++ (syncEvs ++ wc.1), wc.2)

/-- Embedding of `EventBus.on(topic, handler)`: push the handler onto the
topic's handler list (creating the list when the topic is new), then, if a
cached last value exists for the topic, invoke the handler once with the
cached `data` (replay-on-subscribe); that replay invocation is not wrapped
in try/catch, so a throwing handler propagates out of `on`. -/
def EventBus.on (bus : EventBus) (topic : String) (h : BusHandler) :
    EventBus × List BusEv × Option Nat :=
  let bus1 : EventBus :=
    { bus with
        topicHandlersMap :=
          mapSet bus.topicHandlersMap topic (bus.handlersOf topic ++ [h]) }
  match mapGet bus1.eventCache topic with
  | some ce => (bus1, [BusEv.invoke h.hid ce.data], if h.throws then some h.hid else none)
  | none => (bus1, [], none)

/-- Spec-shaped description of the wildcard loop's invocations: all the
handlers before the first throwing one, plus the first throwing one. -/
def wcUpTo (topic : String) (data : Data) (ws : List BusHandler) : List BusEv :=
  ((ws.takeWhile fun h => !h.throws) ++ ((ws.dropWhile fun h => !h.throws).take 1)).map
    fun h => BusEv.wcInvoke h.hid topic data

/-- Identity of the first wildcard handler that throws, if any. -/
def firstThrow (ws : List BusHandler) : Option Nat :=
  (ws.find? fun h => h.throws).map fun h => h.hid

theorem runDirect_eq (data : Data) (hs : List BusHandler) :
    runDirect data hs
      = hs.flatMap fun h =>
          BusEv.invoke h.hid data :: if h.throws then [BusEv.errorLog h.hid] else [] := by
  induction hs with
  | nil => rfl
  | cons h rest ih => simp [runDirect, ih]

theorem runWildcards_eq (topic : String) (data : Data) (ws : List BusHandler) :
    runWildcards topic data ws = (wcUpTo topic data ws, firstThrow ws) := by
  induction ws with
  | nil => rfl
  | cons h rest ih =>
      by_cases hth : h.throws
      · simp [runWildcards, wcUpTo, firstThrow, hth, List.takeWhile, List.dropWhile,
          List.find?]
      · simp [runWildcards, hth, ih, wcUpTo, firstThrow, List.takeWhile, List.dropWhile,
          List.find?]

theorem runWildcards_noThrow (topic : String) (data : Data) (ws : List BusHandler)
    (h : ∀ x ∈ ws, x.throws = false) :
    runWildcards topic data ws
      = (ws.map fun x => BusEv.wcInvoke x.hid topic data, none) := by
  induction ws with
  | nil => rfl
  | cons w rest ih =>
      have hw : w.throws = false := h w (List.mem_cons_self w rest)
      have hrest : ∀ x ∈ rest, x.throws = false := fun x hx => h x (List.mem_cons_of_mem w hx)
      simp [runWildcards, hw, ih hrest]

/-- Claim C1: for every `pub(topic, data, sync, isCached)` call (here under
the assumption that no wildcard handler throws, so that the wildcard loop
runs to completion): first, if `isCached`, the pair `(data, sync)`
overwrites the topic's cached last value; then every direct handler for
the topic is invoked with `data` in registration order (throwing ones
logged and skipped past); then, if `sync`, the event is forwarded to the
synchronization adapter; and only after that is every wildcard handler
invoked with `(topic, data)`. -/
theorem pub_dispatch_order (bus : EventBus) (topic : String) (data : Data)
    (sync isCached : Bool)
    (hwc : ∀ h ∈ bus.wildcardHandlers, h.throws = false) :
    (bus.pub topic data sync isCached).1.eventCache
        = (if isCached then mapSet bus.eventCache topic ⟨data, sync⟩ else bus.eventCache)
    ∧ (bus.pub topic data sync isCached).2.1
        = ((bus.handlersOf topic).flatMap fun h =>
              BusEv.invoke h.hid data :: if h.throws then [BusEv.errorLog h.hid] else [])
          ++ ((if sync then [BusEv.syncSend topic data isCached] else [])
            ++ bus.wildcardHandlers.map fun h => BusEv.wcInvoke h.hid topic data)
    ∧ (bus.pub topic data sync isCached).2.2 = none := by
  cases isCached <;>
    cases hmg : mapGet bus.topicHandlersMap topic <;>
      simp [EventBus.pub, EventBus.handlersOf, hmg, runDirect_eq,
        runWildcards_noThrow _ _ _ hwc, runDirect]

/-- A concrete bus used to instantiate `pub_dispatch_order`. -/
def pubOrderBus : EventBus :=
  { topicHandlersMap := [("alt", [⟨1, false⟩, ⟨2, true⟩, ⟨3, false⟩])]
  , wildcardHandlers := [⟨7, false⟩]
  , eventCache := [("spd", ⟨"250", false⟩)] }

theorem pub_dispatch_order_witness :
    (pubOrderBus.pub "alt" "100" true true).1.eventCache
        = (if true then mapSet pubOrderBus.eventCache "alt" ⟨"100", true⟩
           else pubOrderBus.eventCache)
    ∧ (pubOrderBus.pub "alt" "100" true true).2.1
        = ((pubOrderBus.handlersOf "alt").flatMap fun h =>
              BusEv.invoke h.hid "100" :: if h.throws then [BusEv.errorLog h.hid] else [])
          ++ ((if true then [BusEv.syncSend "alt" "100" true] else [])
            ++ pubOrderBus.wildcardHandlers.map fun h => BusEv.wcInvoke h.hid "alt" "100")
    ∧ (pubOrderBus.pub "alt" "100" true true).2.2 = none :=
  pub_dispatch_order pubOrderBus "alt" "100" true true (by decide)

/-- Claim C3: `on(topic, handler)` appends the handler to the topic's
handler list, and invokes the newly registered handler exactly once,
synchronously within the `on` call itself, with the cached last value when
one exists for the topic — and does not invoke it at all when no cached
value exists. -/
theorem on_replays_cached (bus : EventBus) (topic : String) (h : BusHandler) :
    ((bus.on topic h).2.1
      = match mapGet bus.eventCache topic with
        | some ce => [BusEv.invoke h.hid ce.data]
        | none => [])
    ∧ (bus.on topic h).1.topicHandlersMap
      = mapSet bus.topicHandlersMap topic (bus.handlersOf topic ++ [h]) := by
  cases hce : mapGet bus.eventCache topic <;> simp [EventBus.on, hce]

/-- A subscriber registered on a subscribable (`subs` entries in
`AbstractSubscribable` / `ComputedSubject`): `sid` identifies the callback
and `throws` records whether invoking it raises an exception. -/
structure SubjectSub where
  sid : Nat
  throws : Bool
deriving DecidableEq, Repr

/-- Observable events of a subscribable notification: a subscriber
invocation with the current value, and a `console.error` line from the
catch block in `AbstractSubscribable.notify`. -/
inductive SubjectEv (α : Type) where
  | notifyEv (sid : Nat) (val : α)
  | errLog (sid : Nat)
deriving DecidableEq, Repr

/-- The `Subject` state: `value`, `equalityFunc`, `mutateFunc` and the
inherited `subs` list.  The JavaScript `mutateFunc(oldValue, newValue)`
mutates `this.value` in place; the embedding models it as a function
returning the stored value that results. -/
structure Subject (α : Type) where
  value : α
  equalityFunc : α → α → Bool
  mutateFunc : Option (α → α → α)
  subs : List SubjectSub

/-- The loop of `AbstractSubscribable.notify`: each subscriber is invoked
with `this.get()` inside a try/catch, so a throwing subscriber produces a
logged error and the loop continues with the remaining subscribers. -/
def notifyLoop {α : Type} (val : α) : List SubjectSub → List (SubjectEv α)
  | [] => []
  | sub :: rest =>
      SubjectEv.notifyEv sub.sid val ::
        ((if sub.throws then [SubjectEv.errLog sub.sid] else []) ++ notifyLoop val rest)

/-- Embedding of `AbstractSubscribable.notify` for a `Subject`. -/
def Subject.notify {α : Type} (s : Subject α) : List (SubjectEv α) :=
  notifyLoop s.value s.subs

/-- Embedding of `Subject.set(value)`: if `equalityFunc(value, this.value)`
holds, do nothing; otherwise update the stored value (through `mutateFunc`
when configured, by replacement otherwise) and then notify every
subscriber with the new current value. -/
def Subject.set {α : Type} (s : Subject α) (value : α) : Subject α × List (SubjectEv α) :=
  if s.equalityFunc value s.value then (s, [])
  else
    let newValue :=
      match s.mutateFunc with
      | some f => f s.value value
      | none => value
    let s1 := { s with value := newValue }
    (s1, s1.notify)

theorem notifyLoop_eq {α : Type} (val : α) (subs : List SubjectSub) :
    notifyLoop val subs
      = subs.flatMap fun sub =>
          SubjectEv.notifyEv sub.sid val ::
            if sub.throws then [SubjectEv.errLog sub.sid] else [] := by
  induction subs with
  | nil => rfl
  | cons sub rest ih => simp [notifyLoop, ih]

/-- Claim C2: calling `set(x)` when `equality(x, current)` holds invokes no
subscriber and leaves the subject unchanged; calling `set(x)` when it does
not hold updates the value (via the mutate function if configured,
otherwise by replacement) and then invokes every subscriber, in
subscription order, with the new current value. -/
theorem subject_set_equality (α : Type) (s : Subject α) (v : α) :
    (s.equalityFunc v s.value = true → s.set v = (s, []))
    ∧ (s.equalityFunc v s.value = false →
        (s.set v).1.value
            = (match s.mutateFunc with | some f => f s.value v | none => v)
        ∧ (s.set v).1.subs = s.subs
        ∧ (s.set v).2
            = s.subs.flatMap fun sub =>
                SubjectEv.notifyEv sub.sid (s.set v).1.value ::
                  if sub.throws then [SubjectEv.errLog sub.sid] else []) := by
  constructor
  · intro heq
    simp [Subject.set, heq]
  · intro hne
    refine ⟨by simp [Subject.set, hne], by simp [Subject.set, hne], ?_⟩
    simp [Subject.set, hne, Subject.notify, notifyLoop_eq]

/-- A concrete subject used to instantiate `subject_set_equality`. -/
def subjectW : Subject Int :=
  { value := 0
  , equalityFunc := fun a b => a == b
  , mutateFunc := none
  , subs := [⟨1, false⟩, ⟨2, true⟩, ⟨3, false⟩] }

theorem subject_set_equality_witness :
    ((subjectW.set 0 = (subjectW, []))
    ∧ ((subjectW.set 5).1.value
          = (match subjectW.mutateFunc with | some f => f subjectW.value 5 | none => 5)
       ∧ (subjectW.set 5).1.subs = subjectW.subs
       ∧ (subjectW.set 5).2
           = subjectW.subs.flatMap fun sub =>
               SubjectEv.notifyEv sub.sid (subjectW.set 5).1.value ::
                 if sub.throws then [SubjectEv.errLog sub.sid] else [])) :=
  ⟨(subject_set_equality Int subjectW 0).1 (by decide),
   (subject_set_equality Int subjectW 5).2 (by decide)⟩

/-- The `ComputedSubject` state: `computeFn`, the raw `_value`, the
`_computedValue`, and the `_subs` list. -/
structure ComputedSubject (I T : Type) where
  computeFn : I → T
  value : I
  computedValue : T
  subs : List SubjectSub

/-- The subscriber loop of `ComputedSubject.set`: unlike
`AbstractSubscribable.notify`, the invocations `this._subs[i](...)` are not
wrapped in try/catch, so the first throwing subscriber aborts the loop and
its exception propagates out of `set`. -/
def csNotifyLoop {T : Type} (val : T) : List SubjectSub → List (SubjectEv T) × Option Nat
  | [] => ([], none)
  | sub :: rest =>
      if sub.throws then ([SubjectEv.notifyEv sub.sid val], some sub.sid)
      else
        let r := csNotifyLoop val rest
        (SubjectEv.notifyEv sub.sid val :: r.1, r.2)

/-- Embedding of `ComputedSubject.set(value)`: store the raw value, compute
`computeFn(value)`, and if the computed value differs (strict inequality)
from the stored computed value, store it and notify the subscribers
without any try/catch. -/
def ComputedSubject.set {I T : Type} [DecidableEq T] (s : ComputedSubject I T) (v : I) :
    ComputedSubject I T × List (SubjectEv T) × Option Nat :=
  let compValue := s.computeFn v
  if compValue ≠ s.computedValue then
    let s1 := { s with value := v, computedValue := compValue }
    let r := csNotifyLoop compValue s1.subs
    (s1, r.1, r.2)
  else
    ({ s with value := v }, [], none)

/-- Spec-shaped description of the uncaught subscriber loop's invocations:
all the subscribers before the first throwing one, plus the first throwing
one. -/
def subUpTo {T : Type} (val : T) (subs : List SubjectSub) : List (SubjectEv T) :=
  ((subs.takeWhile fun sub => !sub.throws)
      ++ ((subs.dropWhile fun sub => !sub.throws).take 1)).map
    fun sub => SubjectEv.notifyEv sub.sid val

/-- Identity of the first subscriber that throws, if any. -/
def subFirstThrow (subs : List SubjectSub) : Option Nat :=
  (subs.find? fun sub => sub.throws).map fun sub => sub.sid

theorem csNotifyLoop_eq {T : Type} (val : T) (subs : List SubjectSub) :
    csNotifyLoop val subs = (subUpTo val subs, subFirstThrow subs) := by
  induction subs with
  | nil => rfl
  | cons sub rest ih =>
      by_cases hth : sub.throws
      · simp [csNotifyLoop, subUpTo, subFirstThrow, hth, List.takeWhile, List.dropWhile,
          List.find?]
      · simp [csNotifyLoop, hth, ih, subUpTo, subFirstThrow, List.takeWhile,
          List.dropWhile, List.find?]

/-- A concrete bus whose wildcard handler list starts with a throwing
handler, used to refute claim C4. -/
def wcThrowBus : EventBus :=
  { topicHandlersMap := []
  , wildcardHandlers := [⟨1, true⟩, ⟨2, false⟩]
  , eventCache := [] }

/-- Counterexample to claim C4: on a bus whose wildcard handler 1 throws
and whose wildcard handler 2 follows it, `pub` lets the exception of
handler 1 propagate to the caller (the uncaught-exception component is
`some 1`, not `none`) and handler 2 is never invoked — so an exception
thrown by a wildcard handler is neither caught at the dispatch boundary
nor prevented from stopping the remaining handlers. -/
theorem pub_wildcard_throw_cex :
    (wcThrowBus.pub "t" "d" false true).2.2 = some 1
    ∧ BusEv.wcInvoke 2 "t" "d" ∉ (wcThrowBus.pub "t" "d" false true).2.1 := by
  decide

/-- Claim C4, amended: exceptions are caught and logged at the dispatch
boundary for the direct-topic handlers of `EventBus.pub` (every direct
handler still runs, and no exception from that loop escapes) and for
`AbstractSubscribable.notify` subscribers (every subscriber still runs);
but wildcard handlers in `EventBus.pub` and subscribers in
`ComputedSubject.set` are invoked without try/catch, so there the first
throwing handler's exception propagates to the caller of `pub`/`set` and
the remaining handlers of that loop are not invoked. -/
theorem dispatch_error_boundaries :
    (∀ (bus : EventBus) (topic : String) (data : Data) (sync isCached : Bool),
        (bus.pub topic data sync isCached).2.1
          = ((bus.handlersOf topic).flatMap fun h =>
                BusEv.invoke h.hid data :: if h.throws then [BusEv.errorLog h.hid] else [])
            ++ ((if sync then [BusEv.syncSend topic data isCached] else [])
              ++ wcUpTo topic data bus.wildcardHandlers)
        ∧ (bus.pub topic data sync isCached).2.2 = firstThrow bus.wildcardHandlers)
    ∧ (∀ (α : Type) (s : Subject α),
        s.notify
          = s.subs.flatMap fun sub =>
              SubjectEv.notifyEv sub.sid s.value ::
                if sub.throws then [SubjectEv.errLog sub.sid] else [])
    ∧ (∀ (cs : ComputedSubject Int Int) (v : Int),
        cs.computeFn v ≠ cs.computedValue →
          (cs.set v).2.1 = subUpTo (cs.computeFn v) cs.subs
          ∧ (cs.set v).2.2 = subFirstThrow cs.subs) := by
  refine ⟨?_, ?_, ?_⟩
  · intro bus topic data sync isCached
    cases isCached <;>
      cases hmg : mapGet bus.topicHandlersMap topic <;>
        simp [EventBus.pub, EventBus.handlersOf, hmg, runDirect_eq, runWildcards_eq,
          runDirect]
  · intro α s
    simp [Subject.notify, notifyLoop_eq]
  · intro cs v hne
    simp [ComputedSubject.set, hne, csNotifyLoop_eq]

/-- A concrete computed subject whose first subscriber throws, used to
instantiate `dispatch_error_boundaries`. -/
def computedW : ComputedSubject Int Int :=
  { computeFn := fun x => x + 1
  , value := 0
  , computedValue := 1
  , subs := [⟨1, true⟩, ⟨2, false⟩] }

theorem dispatch_error_boundaries_witness :
    (computedW.set 5).2.1 = subUpTo (computedW.computeFn 5) computedW.subs
    ∧ (computedW.set 5).2.2 = subFirstThrow computedW.subs :=
  dispatch_error_boundaries.2.2 computedW 5 (by decide)

/-- The reserved storage key `EventBusStorageSync.EB_KEY`. -/
def storageEBKey : String := "eb.evt"

/-- The placeholder payload `EventBusStorageSync.EMPTY_DATA`. -/
def storageEmptyData : String := "\x7b\x7d"

/-- A `storage` DOM event as seen by `EventBusStorageSync.receiveEvent`:
the changed key and its new value (the JavaScript code also requires the
new value to be truthy, i.e. a non-empty string). -/
structure StorageEvent where
  key : String
  newValue : String
deriving DecidableEq, Repr

/-- A call made back into `EventBus.pub` by a synchronization adapter,
with the four arguments of `pub(topic, data, sync, isCached)`; `data` is
`none` when the JavaScript argument is `undefined`.  Omitted arguments
take `pub`'s defaults (`sync = false`, `isCached = true`). -/
structure PubCall where
  topic : String
  data : Option Data
  sync : Bool
  isCached : Bool
deriving DecidableEq, Repr

/-- Embedding of `EventBusStorageSync.sendEvent(topic, data)`: the string
written to (and immediately removed from) the shared storage key,
`topic + "," + JSON.stringify(data)` with `EMPTY_DATA` for an undefined
payload.  JSON serialization is modelled as the identity on the opaque
payload string. -/
def storageSendEvent (topic : String) (data : Option Data) : String :=
  topic ++ "," ++ (match data with | some d => d | none => storageEmptyData)

/-- Splitting a character list at every comma, accumulating the current
segment in reverse; models JavaScript `String.prototype.split(',')`,
which keeps empty segments and always returns at least one segment. -/
def splitCommaAux : List Char → List Char → List (List Char)
  | [], acc => [acc.reverse]
  | c :: rest, acc =>
      if c = ',' then acc.reverse :: splitCommaAux rest []
      else splitCommaAux rest (c :: acc)

/-- Embedding of `e.newValue.split(',')`. -/
def splitComma (s : String) : List String :=
  (splitCommaAux s.toList []).map List.asString

/-- Embedding of `EventBusStorageSync.receiveEvent(e)`: when the event is
for the reserved key and carries a non-empty value, split the value on
every comma and call `recvEventCb(val[0], val[1] parsed, true)` — i.e.
`pub` with `sync` bound to the literal `true` (third positional argument)
and `isCached` left to its default `true`.  Returns the `pub` call made,
or `none` when the event is ignored. -/
def storageReceiveEvent (e : StorageEvent) : Option PubCall :=
  if e.key = storageEBKey ∧ e.newValue ≠ "" then
    let val := splitComma e.newValue
    some { topic := val.headD ""
         , data := (val.drop 1).head?
         , sync := true
         , isCached := true }
  else none

/-- A concrete received storage event (topic `"x"`, serialized payload
`"5"`) used to refute claim C5. -/
def storageCexEvent : StorageEvent := { key := "eb.evt", newValue := "x,5" }

/-- Counterexample to claim C5: the storage-relay strategy re-publishes a
received event with `sync = true`, not `sync = false` — receiving the
payload `"x,5"` produces a local `pub("x", "5", true, true)` call, so the
replica push is forwarded to the synchronization adapter again, and the
`isCached` flag is the default `true` rather than one carried in the
payload (the wire format carries no such flag). -/
theorem storage_receive_sync_cex :
    storageReceiveEvent storageCexEvent
        = some { topic := "x", data := some "5", sync := true, isCached := true }
    ∧ (storageReceiveEvent storageCexEvent).map PubCall.sync ≠ some false := by
  constructor
  · rfl
  · decide

/-- Claim C5, amended: for every storage event on the reserved key with a
non-empty value, the deserialized `(topic, data)` is re-published on the
owning bus with `sync = true` (the literal third argument in the source),
so the received replica is delivered to local handlers and cached but is
also forwarded back to the synchronization adapter; the wire payload
carries no `isCached` flag, and the local publish uses `pub`'s default
`isCached = true`. -/
theorem storage_receive_republishes (e : StorageEvent)
    (hkey : e.key = storageEBKey) (hval : e.newValue ≠ "") :
    storageReceiveEvent e
      = some { topic := (splitComma e.newValue).headD ""
             , data := ((splitComma e.newValue).drop 1).head?
             , sync := true
             , isCached := true } := by
  simp [storageReceiveEvent, hkey, hval]

theorem storage_receive_republishes_witness :
    storageReceiveEvent { key := storageEBKey, newValue := storageSendEvent "x" (some "5") }
      = some { topic := "x", data := some "5", sync := true, isCached := true } :=
  (storage_receive_republishes
      { key := storageEBKey, newValue := storageSendEvent "x" (some "5") }
      rfl (by decide)).trans (by decide)

/-- A message sent over the Coherent broadcast channel by
`EventBusCoherentSync.sendEvent`. -/
structure CoherentMsg where
  topic : String
  data : Data
  isCached : Bool
  busId : Nat
  evtNum : Int
deriving DecidableEq, Repr

/-- The `EventBusCoherentSync` receive-side state: its own `busId` and
`lastEventSynced` (initialized to `-1` in the source, hence an `Int`). -/
structure CoherentSyncState where
  busId : Nat
  lastEventSynced : Int
deriving DecidableEq, Repr

/-- Embedding of `EventBusCoherentSync.receiveEvent(e)`: a message whose
`busId` equals our own is discarded (self-echo); otherwise a message whose
`evtNum` equals `lastEventSynced` is discarded (duplicate guard);
otherwise `lastEventSynced` is set to `e.evtNum` and the message is
re-published locally once via `recvEventCb(topic, data, undefined,
isCached)` — `pub` with `sync` at its default `false` and `isCached`
forwarded from the message. -/
def coherentReceiveEvent (s : CoherentSyncState) (e : CoherentMsg) :
    CoherentSyncState × Option PubCall :=
  if e.busId = s.busId then (s, none)
  else if s.lastEventSynced = e.evtNum then (s, none)
  else ({ s with lastEventSynced := e.evtNum },
        some { topic := e.topic, data := some e.data, sync := false, isCached := e.isCached })

/-- Claim C6: the channel-relay strategy discards (no local re-publish, no
state change) every message whose embedded `busId` equals its own, and
every message whose sequence number equals the last one processed; any
other message is re-published locally exactly once, with the duplicate
guard updated to its sequence number. -/
theorem coherent_receive_dedup (s : CoherentSyncState) (e : CoherentMsg) :
    (e.busId = s.busId → coherentReceiveEvent s e = (s, none))
    ∧ (e.busId ≠ s.busId → s.lastEventSynced = e.evtNum →
        coherentReceiveEvent s e = (s, none))
    ∧ (e.busId ≠ s.busId → s.lastEventSynced ≠ e.evtNum →
        (coherentReceiveEvent s e).1 = { s with lastEventSynced := e.evtNum }
        ∧ (coherentReceiveEvent s e).2
            = some { topic := e.topic, data := some e.data, sync := false
                   , isCached := e.isCached }) := by
  refine ⟨?_, ?_, ?_⟩
  · intro hself
    simp [coherentReceiveEvent, hself]
  · intro hself hdup
    simp [coherentReceiveEvent, hself, hdup]
  · intro hself hdup
    simp [coherentReceiveEvent, hself, hdup]

theorem coherent_receive_dedup_witness :
    (coherentReceiveEvent ⟨42, -1⟩ ⟨"x", "5", true, 42, 0⟩ = (⟨42, -1⟩, none))
    ∧ (coherentReceiveEvent ⟨42, 3⟩ ⟨"x", "5", true, 7, 3⟩ = (⟨42, 3⟩, none))
    ∧ ((coherentReceiveEvent ⟨42, -1⟩ ⟨"x", "5", true, 7, 0⟩).1 = ⟨42, 0⟩
       ∧ (coherentReceiveEvent ⟨42, -1⟩ ⟨"x", "5", true, 7, 0⟩).2
           = some { topic := "x", data := some "5", sync := false, isCached := true }) :=
  ⟨(coherent_receive_dedup ⟨42, -1⟩ ⟨"x", "5", true, 42, 0⟩).1 (by decide),
   (coherent_receive_dedup ⟨42, 3⟩ ⟨"x", "5", true, 7, 3⟩).2.1 (by decide) (by decide),
   (coherent_receive_dedup ⟨42, -1⟩ ⟨"x", "5", true, 7, 0⟩).2.2 (by decide) (by decide)⟩

/-- The period of `Consumer.atFrequency(frequency)`:
`const deltaTimeTrigger = 1000 / frequency`.  Times are modelled in whole
milliseconds; the embedding covers frequencies dividing 1000 (such as the
10 Hz of the claim), for which the JavaScript division is exact. -/
def deltaTimeTrigger (frequency : Nat) : Nat := 1000 / frequency

/-- The catch-up loop of `Consumer.atFrequency`:
`while ((state.previousTime + deltaTimeTrigger) < currentTime)
state.previousTime += deltaTimeTrigger;`.  The first argument is fuel
bounding the iteration count; `currentTime - previousTime` iterations
suffice whenever the trigger is at least one millisecond. -/
def advanceTime : Nat → Nat → Nat → Nat → Nat
  | 0, _, previousTime, _ => previousTime
  | fuel + 1, trigger, previousTime, currentTime =>
      if previousTime + trigger < currentTime then
        advanceTime fuel trigger (previousTime + trigger) currentTime
      else previousTime

/-- One filter invocation of the `Consumer.atFrequency` stage at wall-clock
time `currentTime` with stored state `previousTime`: forwards the value
(second component `true`) only when the elapsed time reaches the trigger,
advancing `previousTime` by whole multiples of the trigger. -/
def atFrequencyStep (trigger previousTime currentTime : Nat) : Nat × Bool :=
  let deltaTime := currentTime - previousTime
  if trigger ≤ deltaTime then
    (advanceTime (currentTime - previousTime) trigger previousTime currentTime, true)
  else (previousTime, false)

/-- Runs the `atFrequency` stage over a list of `(time, value)` events in
order, returning the final `previousTime` state and the list of forwarded
values. -/
def runAtFrequency : Nat → Nat → List (Nat × Data) → Nat × List Data
  | _, previousTime, [] => (previousTime, [])
  | trigger, previousTime, (t, v) :: events =>
      let r := atFrequencyStep trigger previousTime t
      let rest := runAtFrequency trigger r.1 events
      if r.2 then (rest.1, v :: rest.2) else rest

/-- Counterexample to claim C7: for a chain built with `atFrequency(10)`
(trigger 100 ms) constructed at t = 0 (so `previousTime` starts at 0) and
receiving values at t = 0, 60 and 140 ms, the forwarded values are not the
ones at t = 0 and t = 140: at t = 0 the elapsed time since construction is
0 < 100, so the first value is suppressed too, and only the t = 140 value
is forwarded. -/
theorem atFrequency_first_publish_cex :
    (runAtFrequency (deltaTimeTrigger 10) 0 [(0, "a"), (60, "b"), (140, "c")]).2
      ≠ ["a", "c"] := by
  decide

/-- Claim C7, amended: for a chain built with `atFrequency(10)` (period
100 ms) constructed at t = 0 and receiving values at t = 0, 60 and 140 ms,
exactly the value at t = 140 is forwarded (t = 0 is suppressed because the
elapsed time since construction is 0, and t = 60 because 60 < 100), and
after the t = 140 forwarding the filter's internal reference time equals
100 — a multiple of the 100 ms period rather than 140. -/
theorem atFrequency_drift_free :
    runAtFrequency (deltaTimeTrigger 10) 0 [(0, "a"), (60, "b"), (140, "c")]
        = (100, ["c"])
    ∧ 100 % deltaTimeTrigger 10 = 0 ∧ (100 : Nat) ≠ 140 := by
  decide

/-- JavaScript `Math.round` on an exact rational: rounds half up (toward
positive infinity). -/
def jsRound (x : ℚ) : ℤ := ⌊x + 1 / 2⌋

/-- The quantization of `Consumer.withPrecision(precision)`:
`Math.round(dataValue * multiplier) / multiplier` with
`multiplier = Math.pow(10, precision)`, on exact rationals. -/
def roundToPrecision (precision : Nat) (value : ℚ) : ℚ :=
  let multiplier : ℚ := 10 ^ precision
  (jsRound (value * multiplier) : ℚ) / multiplier

/-- The initial filter state of `Consumer.withPrecision`: `{ lastValue: 0 }`
— the last-forwarded-value slot starts at 0 before anything has been
forwarded. -/
def withPrecisionInit : ℚ := 0

/-- One filter invocation of the `Consumer.withPrecision` stage: quantize
the incoming value; if the quantized value differs (strict inequality)
from `lastValue`, store it and forward it (second component
`some rounded`), otherwise forward nothing. -/
def withPrecisionStep (precision : Nat) (lastValue : ℚ) (data : ℚ) : ℚ × Option ℚ :=
  let currentValueAtPrecision := roundToPrecision precision data
  if currentValueAtPrecision ≠ lastValue then
    (currentValueAtPrecision, some currentValueAtPrecision)
  else (lastValue, none)

/-- Claim C10: because `withPrecision` initializes its last-forwarded-value
state to 0, the very first value received after `handle()` is suppressed
(nothing is forwarded and the state is unchanged) whenever it rounds to 0
at the configured precision, even though no value was previously
delivered. -/
theorem withPrecision_first_zero_suppressed (precision : Nat) (data : ℚ)
    (h : roundToPrecision precision data = 0) :
    withPrecisionStep precision withPrecisionInit data = (withPrecisionInit, none) := by
  simp [withPrecisionStep, withPrecisionInit, h]

theorem withPrecision_first_zero_suppressed_witness :
    withPrecisionStep 1 withPrecisionInit (1 / 25) = (withPrecisionInit, none) :=
  withPrecision_first_zero_suppressed 1 (1 / 25) (by
    norm_num [roundToPrecision, jsRound])

/-- A handler whose invocation may register further handlers on the same
list (the `bus.on` / `sub` push path reached from inside a handler
callback): `hid` identifies the callback and `regs` lists the handlers it
registers when invoked. -/
inductive RegHandler where
  | mk (hid : Nat) (regs : List RegHandler)

/-- The identity of a registering handler. -/
def RegHandler.hid : RegHandler → Nat
  | .mk h _ => h

/-- The handlers a registering handler registers when invoked. -/
def RegHandler.regs : RegHandler → List RegHandler
  | .mk _ r => r

/-- The dispatch loop shared by `EventBus.pub` (over a topic's direct
handlers) and `AbstractSubscribable.notify`: the length of the handler
list is captured before the loop (`const len = handlers.length`,
`const subLen = this.subs.length`) and the loop runs the index from 0 up
to that captured bound while the underlying list may grow.  Invoking
handler `i` appends its registrations to the live list and logs its
identity; `fuel` is the captured length bound. -/
def runFromIndex : Nat → Nat → List RegHandler → List Nat → List RegHandler × List Nat
  | _, 0, hs, log => (hs, log)
  | i, fuel + 1, hs, log =>
      match hs[i]? with
      | none => (hs, log)
      | some h => runFromIndex (i + 1) fuel (hs ++ h.regs) (log ++ [h.hid])

/-- One full dispatch over a handler list with the length snapshotted at
the start, as in `EventBus.pub` and `AbstractSubscribable.notify`. -/
def dispatchSnapshot (hs : List RegHandler) : List RegHandler × List Nat :=
  runFromIndex 0 hs.length hs []

theorem runFromIndex_append (fuel : Nat) :
    ∀ (i : Nat) (hs ext : List RegHandler) (log : List Nat), i + fuel = hs.length →
      (runFromIndex i fuel (hs ++ ext) log).2 = log ++ ((hs.drop i).map RegHandler.hid) := by
  induction fuel with
  | zero =>
      intro i hs ext log hlen
      have hdrop : hs.drop i = [] := List.drop_eq_nil_of_le (by omega)
      simp [runFromIndex, hdrop]
  | succ fuel ih =>
      intro i hs ext log hlen
      have hi : i < hs.length := by omega
      have hi2 : i < (hs ++ ext).length := by simp; omega
      have hget : (hs ++ ext)[i]? = some (hs.get ⟨i, hi⟩) := by
        rw [List.getElem?_append_left hi, List.getElem?_eq_getElem hi]
        rfl
      have hstep : runFromIndex i (fuel + 1) (hs ++ ext) log
          = runFromIndex (i + 1) fuel ((hs ++ ext) ++ (hs.get ⟨i, hi⟩).regs)
              (log ++ [(hs.get ⟨i, hi⟩).hid]) := by
        simp [runFromIndex, hget]
      rw [hstep, List.append_assoc,
        ih (i + 1) hs (ext ++ (hs.get ⟨i, hi⟩).regs) (log ++ [(hs.get ⟨i, hi⟩).hid])
          (by omega)]
      have hdrop : hs.drop i = hs.get ⟨i, hi⟩ :: hs.drop (i + 1) :=
        List.drop_eq_getElem_cons hi
      rw [hdrop, List.map_cons, List.append_assoc, List.singleton_append]

/-- Claim C8: in the snapshotted dispatch loop used by `EventBus.pub` and
`AbstractSubscribable.notify`, the handlers invoked are exactly the ones
registered at the moment the dispatch began, in registration order — a
handler registered from within a handler callback during the dispatch is
appended to the live list but not invoked for the dispatch already in
progress. -/
theorem dispatch_snapshot_no_new_handlers (hs : List RegHandler) :
    (dispatchSnapshot hs).2 = hs.map RegHandler.hid := by
  have h := runFromIndex_append hs.length 0 hs [] [] (by simp)
  simpa using h

/-- A subscriber on the upstream observable of a `MappedSubject` with one
input: either the mapped subject's per-upstream listener
(`this.inputHandlers[0]`, bound to `updateValue`) or an unrelated external
subscriber. -/
inductive UpSub where
  | inputHandler
  | external (sid : Nat)
deriving DecidableEq, Repr

/-- Observable events of the upstream/mapped system: an external upstream
subscriber invocation, a mapped-subject subscriber invocation, and a
caught-error log line from `AbstractSubscribable.notify` on the mapped
subject. -/
inductive MapEv where
  | upNotify (sid : Nat) (v : Int)
  | mapNotify (sid : Nat) (v : Int)
  | mapErrLog (sid : Nat)
deriving DecidableEq, Repr

/-- Whether an event belongs to the mapped subject (a mapped-subscriber
invocation or its error log). -/
def MapEv.isMapEv : MapEv → Bool
  | .upNotify _ _ => false
  | .mapNotify _ _ => true
  | .mapErrLog _ => true

/-- A one-upstream `MappedSubject` together with its upstream `Subject`
(values fixed to `Int`): the upstream's `value`, `equalityFunc` and `subs`
list; the mapped subject's `mapFunc` (from the single cached input value
and the previous own value), `equalityFunc`, cached `inputValues[0]`, own
`value` and own `subs`. -/
structure MappedSystem where
  upValue : Int
  upEq : Int → Int → Bool
  upSubs : List UpSub
  mapFunc : Int → Int → Int
  mapEq : Int → Int → Bool
  inputValue : Int
  mapValue : Int
  mapSubs : List SubjectSub

/-- The mapped subject's own notification loop
(`AbstractSubscribable.notify`, with try/catch). -/
def mapNotifyLoop (val : Int) : List SubjectSub → List MapEv
  | [] => []
  | sub :: rest =>
      MapEv.mapNotify sub.sid val ::
        ((if sub.throws then [MapEv.mapErrLog sub.sid] else []) ++ mapNotifyLoop val rest)

/-- Embedding of `MappedSubject.updateValue(0)`: refresh the cached input
value from the upstream, recompute the combiner over the cached inputs and
the previous own value, and if the output differs per the mapped equality
function, store it and notify the mapped subject's subscribers. -/
def MappedSystem.updateValue (sys : MappedSystem) : MappedSystem × List MapEv :=
  let sys1 := { sys with inputValue := sys.upValue }
  let value := sys1.mapFunc sys1.inputValue sys1.mapValue
  if sys1.mapEq sys1.mapValue value then (sys1, [])
  else
    let sys2 := { sys1 with mapValue := value }
    (sys2, mapNotifyLoop value sys2.mapSubs)

/-- The upstream subject's notification loop: external subscribers are
plain invocations; the `inputHandler` entry runs the mapped subject's
`updateValue`. -/
def upNotifyLoop : MappedSystem → List UpSub → MappedSystem × List MapEv
  | sys, [] => (sys, [])
  | sys, UpSub.external n :: rest =>
      let r := upNotifyLoop sys rest
      (r.1, MapEv.upNotify n sys.upValue :: r.2)
  | sys, UpSub.inputHandler :: rest =>
      let u := sys.updateValue
      let r := upNotifyLoop u.1 rest
      (r.1, u.2 ++ r.2)

/-- Embedding of `Subject.set` on the upstream subject of the mapped
system (with value replacement; the upstream has no mutate function). -/
def MappedSystem.upSet (sys : MappedSystem) (v : Int) : MappedSystem × List MapEv :=
  if sys.upEq v sys.upValue then (sys, [])
  else
    let sys1 := { sys with upValue := v }
    upNotifyLoop sys1 sys1.upSubs

/-- Removal of the first occurrence of the input handler from the upstream
subscriber list: `AbstractSubscribable.unsub` (`indexOf` + `splice`),
leaving the list unchanged when the handler is absent. -/
def removeFirstInputHandler : List UpSub → List UpSub
  | [] => []
  | sub :: rest =>
      if sub = UpSub.inputHandler then rest else sub :: removeFirstInputHandler rest

/-- Embedding of `MappedSubject.destroy()` for the one-upstream system:
unsubscribe the per-upstream listener from the upstream. -/
def MappedSystem.destroy (sys : MappedSystem) : MappedSystem :=
  { sys with upSubs := removeFirstInputHandler sys.upSubs }

/-- Runs a sequence of upstream `set` calls, accumulating events. -/
def MappedSystem.runUpSets : MappedSystem → List Int → MappedSystem × List MapEv
  | sys, [] => (sys, [])
  | sys, v :: vs =>
      let r := sys.upSet v
      let r2 := r.1.runUpSets vs
      (r2.1, r.2 ++ r2.2)

/-- The number of occurrences of the input handler in an upstream
subscriber list. -/
def countInputHandler : List UpSub → Nat
  | [] => 0
  | UpSub.inputHandler :: rest => countInputHandler rest + 1
  | UpSub.external _ :: rest => countInputHandler rest

theorem countInputHandler_removeFirst (l : List UpSub)
    (h : countInputHandler l ≤ 1) : countInputHandler (removeFirstInputHandler l) = 0 := by
  induction l with
  | nil => rfl
  | cons sub rest ih =>
      cases sub with
      | inputHandler =>
          simp [countInputHandler] at h
          simp [removeFirstInputHandler, h]
      | external n =>
          simp [countInputHandler] at h ih
          simp [removeFirstInputHandler, countInputHandler, ih h]

theorem upNotifyLoop_no_inputHandler (sys : MappedSystem) (subs : List UpSub)
    (h : countInputHandler subs = 0) :
    (upNotifyLoop sys subs).1 = sys
    ∧ ∀ e ∈ (upNotifyLoop sys subs).2, e.isMapEv = false := by
  induction subs generalizing sys with
  | nil => simp [upNotifyLoop]
  | cons sub rest ih =>
      cases sub with
      | inputHandler => simp [countInputHandler] at h
      | external n =>
          simp [countInputHandler] at h
          have hr := ih sys h
          simp [upNotifyLoop, hr.1, MapEv.isMapEv]
          exact hr.2

theorem upSet_frozen (sys : MappedSystem) (v : Int)
    (h : countInputHandler sys.upSubs = 0) :
    (sys.upSet v).1.mapValue = sys.mapValue
    ∧ (sys.upSet v).1.inputValue = sys.inputValue
    ∧ countInputHandler (sys.upSet v).1.upSubs = 0
    ∧ ∀ e ∈ (sys.upSet v).2, e.isMapEv = false := by
  by_cases heq : sys.upEq v sys.upValue
  · simp [MappedSystem.upSet, heq, h]
  · have hr := upNotifyLoop_no_inputHandler { sys with upValue := v } sys.upSubs h
    have h1 : (sys.upSet v).1 = { sys with upValue := v } := by
      simp [MappedSystem.upSet, heq, hr.1]
    have h2 : (sys.upSet v).2 = (upNotifyLoop { sys with upValue := v } sys.upSubs).2 := by
      simp [MappedSystem.upSet, heq]
    rw [h1, h2]
    exact ⟨rfl, rfl, h, hr.2⟩

theorem runUpSets_frozen (vs : List Int) (sys : MappedSystem)
    (h : countInputHandler sys.upSubs = 0) :
    (sys.runUpSets vs).1.mapValue = sys.mapValue
    ∧ ∀ e ∈ (sys.runUpSets vs).2, e.isMapEv = false := by
  induction vs generalizing sys with
  | nil => simp [MappedSystem.runUpSets]
  | cons v rest ih =>
      have hs := upSet_frozen sys v h
      have hr := ih (sys.upSet v).1 hs.2.2.1
      constructor
      · simp [MappedSystem.runUpSets, hr.1, hs.1]
      · intro e he
        simp [MappedSystem.runUpSets] at he
        rcases he with he | he
        · exact hs.2.2.2 e he
        · exact hr.2 e he

/-- Claim C9: after `destroy()` on a (one-upstream) `MappedSubject` whose
listener was subscribed at most once (as construction guarantees), any
sequence of subsequent upstream `set` calls leaves the mapped subject's
stored value unchanged and invokes none of its subscribers (only upstream
events occur), while `get()` still returns the last value computed before
`destroy` — `destroy` itself does not change the stored value. -/
theorem mapped_destroy_frozen (sys : MappedSystem) (vs : List Int)
    (hcount : countInputHandler sys.upSubs ≤ 1) :
    (sys.destroy.runUpSets vs).1.mapValue = sys.mapValue
    ∧ (∀ e ∈ (sys.destroy.runUpSets vs).2, e.isMapEv = false)
    ∧ sys.destroy.mapValue = sys.mapValue := by
  have h0 : countInputHandler sys.destroy.upSubs = 0 := by
    simpa [MappedSystem.destroy] using countInputHandler_removeFirst sys.upSubs hcount
  have hr := runUpSets_frozen vs sys.destroy h0
  exact ⟨hr.1, hr.2, rfl⟩

/-- A concrete mapped system (upstream value 1, doubling combiner, one
external upstream subscriber and one mapped subscriber) used to
instantiate `mapped_destroy_frozen`. -/
def mappedW : MappedSystem :=
  { upValue := 1
  , upEq := fun a b => a == b
  , upSubs := [UpSub.external 5, UpSub.inputHandler]
  , mapFunc := fun input _ => 2 * input
  , mapEq := fun a b => a == b
  , inputValue := 1
  , mapValue := 2
  , mapSubs := [⟨9, false⟩] }

theorem mapped_destroy_frozen_witness :
    (mappedW.destroy.runUpSets [7, -3]).1.mapValue = mappedW.mapValue
    ∧ (∀ e ∈ (mappedW.destroy.runUpSets [7, -3]).2, e.isMapEv = false)
    ∧ mappedW.destroy.mapValue = mappedW.mapValue :=
  mapped_destroy_frozen mappedW [7, -3] (by decide)
